import Mathlib

/-!
A verification development for the servo/content-blocker crate
(src/parse.rs, src/repr.rs): a shallow embedding of the rule
representation, the JSON rule-list loader and the evaluation engine,
together with theorems about the behaviour of each component.

Rust strings are modelled as `List Char`; the external collaborators
(the serde_json parser, the url crate and the regex engine) are modelled
as explicit inputs or as small definitions documented at their
declaration sites.
-/

namespace ContentBlocker

/-- Abbreviates a Lean string literal to the `List Char` representation
used for Rust strings throughout the development. -/
def lc (s : String) : List Char := s.data

/-- Model of a `serde_json::Value` (the external JSON collaborator):
objects are ordered association lists, which is enough to model the
`get`, `as_object`, `as_array`, `as_str` and `as_bool` accessors the
loader uses. -/
inductive JVal where
  | null : JVal
  | bool (b : Bool) : JVal
  | num (n : Int) : JVal
  | str (s : List Char) : JVal
  | arr (l : List JVal) : JVal
  | obj (l : List (List Char × JVal)) : JVal

/-- `Value::as_object`. -/
def JVal.as_object : JVal → Option (List (List Char × JVal))
  | .obj l => some l
  | _ => none

/-- `Value::as_array`. -/
def JVal.as_array : JVal → Option (List JVal)
  | .arr l => some l
  | _ => none

/-- `Value::as_str`. -/
def JVal.as_str : JVal → Option (List Char)
  | .str s => some s
  | _ => none

/-- `Value::as_bool`. -/
def JVal.as_bool : JVal → Option Bool
  | .bool b => some b
  | _ => none

/-- `Map::get` on a JSON object (first binding of the key). -/
def jGet (o : List (List Char × JVal)) (key : List Char) : Option JVal :=
  (o.find? (fun kv => kv.1 == key)).map (fun kv => kv.2)

/-- `Error` from src/parse.rs: errors returned when parsing a JSON
representation of a list of rules. -/
inductive Error where
  | JSON : Error
  | NotAList : Error
deriving DecidableEq

/-- `ResourceType` from src/repr.rs: the type of resource being requested. -/
inductive ResourceType where
  | Document | Image | StyleSheet | Script | Font
  | Raw | SVGDocument | Media | Popup
deriving DecidableEq

/-- `ResourceTypeList` from src/repr.rs: all types, or an explicit list. -/
inductive ResourceTypeList where
  | All : ResourceTypeList
  | List (l : List ResourceType) : ResourceTypeList
deriving DecidableEq

/-- `LoadType` from src/repr.rs: the type of load being initiated. -/
inductive LoadType where
  | FirstParty | ThirdParty
deriving DecidableEq

/-- `ResourceType::from_str` from src/parse.rs. -/
def ResourceType.from_str (s : List Char) : Option ResourceType :=
  if s = lc ("document") then some .Document
  else if s = lc ("image") then some .Image
  else if s = lc ("style-sheet") then some .StyleSheet
  else if s = lc ("script") then some .Script
  else if s = lc ("font") then some .Font
  else if s = lc ("raw") then some .Raw
  else if s = lc ("svg-document") then some .SVGDocument
  else if s = lc ("media") then some .Media
  else if s = lc ("popup") then some .Popup
  else none

/-- `LoadType::from_str` from src/parse.rs. -/
def LoadType.from_str (s : List Char) : Option LoadType :=
  if s = lc ("first-party") then some .FirstParty
  else if s = lc ("third-party") then some .ThirdParty
  else none

/-- Model of `url::Url` (external collaborator, spec section 6): the
loader and matcher only use its canonical full string form (`as_str`)
and its host extraction (`domain()`, `none` when the URL has no
resolvable host). -/
structure Url where
  full : List Char
  domain : Option (List Char)
deriving DecidableEq

/-- Model of `regex::Regex` (external collaborator, spec section 6): a
conventional regex engine with an inline case-insensitivity toggle.
Compilation (`Regex.new`) recognises a leading `(?i)` toggle; the
remaining pattern is kept verbatim.  `is_match` is modelled for literal
patterns (the only kind the claims exercise) as substring search,
case-folded when the `(?i)` toggle was present. -/
structure Regex where
  caseInsensitive : Bool
  pattern : List Char
deriving DecidableEq

/-- ASCII case folding used by the modelled regex engine. -/
def foldCase (s : List Char) : List Char := s.map Char.toLower

/-- Substring search used by the modelled regex engine. -/
def isSubstring (needle : List Char) : List Char → Bool
  | [] => needle.isEmpty
  | h :: t => needle.isPrefixOf (h :: t) || isSubstring needle t

/-- `Regex::new` (modelled): strip a leading `(?i)` into the toggle. -/
def Regex.new (s : List Char) : Option Regex :=
  match s with
  | '(' :: '?' :: 'i' :: ')' :: rest => some ⟨true, rest⟩
  | _ => some ⟨false, s⟩

/-- `Regex::is_match` (modelled for literal patterns): substring search,
case-folded when the pattern carried the `(?i)` toggle. -/
def Regex.is_match (r : Regex) (haystack : List Char) : Bool :=
  if r.caseInsensitive then isSubstring (foldCase r.pattern) (foldCase haystack)
  else isSubstring r.pattern haystack

/-- `DomainMatcher` from src/repr.rs: exact entries and subdomain
(suffix) entries. -/
structure DomainMatcher where
  exact : List (List Char)
  subdomain : List (List Char)
deriving DecidableEq

/-- `DomainMatcher::new` from src/parse.rs: a leading `*` routes the
remainder of the entry to the subdomain collection, anything else is an
exact entry; order of each collection is preserved. -/
def DomainMatcher.new : List (List Char) → DomainMatcher
  | [] => ⟨[], []⟩
  | domain :: rest =>
    let m := DomainMatcher.new rest
    match domain with
    | '*' :: stripped => ⟨m.exact, stripped :: m.subdomain⟩
    | _ => ⟨domain :: m.exact, m.subdomain⟩

/-- `DomainMatcher::matches` from src/repr.rs: a URL with no resolvable
host matches nothing; otherwise the host must equal an exact entry, or
for some subdomain entry either be equal to it, or be strictly longer,
have a `.` immediately before the suffix position, and end with it. -/
def DomainMatcher.matches (m : DomainMatcher) (url : Url) : Bool :=
  match url.domain with
  | none => false
  | some domain =>
    m.exact.any (fun candidate => domain == candidate) ||
    m.subdomain.any (fun suffix =>
      match compare domain.length suffix.length with
      | .eq => domain == suffix
      | .gt => decide (domain.getD (domain.length - suffix.length - 1) ' ' = '.')
               && suffix.isSuffixOf domain
      | .lt => false)

/-- `DomainConstraint` from src/repr.rs. -/
inductive DomainConstraint where
  | If (m : DomainMatcher) : DomainConstraint
  | Unless (m : DomainMatcher) : DomainConstraint
deriving DecidableEq

/-- `Trigger` from src/repr.rs: the set of filters that determine if a
given rule's action is performed. -/
structure Trigger where
  url_filter : Regex
  resource_type : ResourceTypeList
  load_type : Option LoadType
  domain_constraint : Option DomainConstraint
deriving DecidableEq

/-- `Action` from src/repr.rs. -/
inductive Action where
  | Block : Action
  | BlockCookies : Action
  | CssDisplayNone (selector : List Char) : Action
  | IgnorePreviousRules : Action
deriving DecidableEq

/-- `Rule` from src/repr.rs. -/
structure Rule where
  trigger : Trigger
  action : Action
deriving DecidableEq

/-- `Request` from src/repr.rs. -/
structure Request where
  url : Url
  resource_type : ResourceType
  load_type : LoadType
deriving DecidableEq

/-- `Reaction` from src/repr.rs. -/
inductive Reaction where
  | Block : Reaction
  | BlockCookies : Reaction
  | HideMatchingElements (selector : List Char) : Reaction
deriving DecidableEq

/-- `Trigger::matches` from src/repr.rs, preserving the early-return
structure: resource-type filter, then load-type filter, then the URL
pattern, and only on a successful URL match the domain constraint. -/
def Trigger.matches (t : Trigger) (request : Request) : Bool :=
  if (match t.resource_type with
      | .List types => (types.find? (fun ty => ty == request.resource_type)).isNone
      | .All => false)
  then false
  else if (match t.load_type with
           | some load_type => request.load_type != load_type
           | none => false)
  then false
  else if t.url_filter.is_match request.url.full then
    match t.domain_constraint with
    | some (.If m) => m.matches request.url
    | some (.Unless m) => !(m.matches request.url)
    | none => true
  else false

/-- `Action::process` from src/repr.rs, with the mutable reaction vector
passed explicitly: the first three variants append one reaction, while
`IgnorePreviousRules` clears the accumulator. -/
def Action.process (a : Action) (reactions : List Reaction) : List Reaction :=
  match a with
  | .Block => reactions ++ [.Block]
  | .BlockCookies => reactions ++ [.BlockCookies]
  | .CssDisplayNone selector => reactions ++ [.HideMatchingElements selector]
  | .IgnorePreviousRules => []

/-- `process_rules_for_request_impl` from src/repr.rs: fold the rules in
order over the reaction accumulator, processing each rule whose trigger
matches the request. -/
def process_rules_for_request (rules : List Rule) (request : Request) : List Reaction :=
  rules.foldl
    (fun reactions rule =>
      if rule.trigger.matches request then rule.action.process reactions
      else reactions)
    []

/-- `Action::from_json` from src/parse.rs. -/
def Action.from_json (v : JVal) : Option Action :=
  match v.as_object with
  | none => none
  | some o =>
    (jGet o (lc ("type"))).bind (fun t => t.as_str) |>.bind (fun t =>
      if t = lc ("block") then some .Block
      else if t = lc ("block-cookies") then some .BlockCookies
      else if t = lc ("ignore-previous-rules") then some .IgnorePreviousRules
      else if t = lc ("css-display-none") then
        match (jGet o (lc ("selector"))).bind (fun s => s.as_str) with
        | some s => some (.CssDisplayNone s)
        | none => none
      else none)

/-- The `resource_type` extraction of `parse_list_impl` (src/parse.rs
lines 129-138): an array keeps exactly its recognised string tags, a
missing or non-array field means all types. -/
def parseResourceType (trigger_source : List (List Char × JVal)) : ResourceTypeList :=
  match (jGet trigger_source (lc ("resource-type"))).bind JVal.as_array with
  | some list => .List (list.filterMap (fun r => r.as_str.bind ResourceType.from_str))
  | none => .All

/-- The `load_type` extraction of `parse_list_impl` (src/parse.rs lines
140-147): the first recognised string entry of the array, if any. -/
def parseLoadType (trigger_source : List (List Char × JVal)) : Option LoadType :=
  ((jGet trigger_source (lc ("load-type"))).bind JVal.as_array).bind
    (fun list => (list.filterMap (fun l => l.as_str.bind LoadType.from_str)).head?)

/-- The `if_domain` extraction of `parse_list_impl` (src/parse.rs lines
149-153). -/
def parseIfDomain (trigger_source : List (List Char × JVal)) : Option DomainMatcher :=
  ((jGet trigger_source (lc ("if-domain"))).bind JVal.as_array).map
    (fun i => DomainMatcher.new (i.filterMap JVal.as_str))

/-- The `unless_domain` extraction of `parse_list_impl` (src/parse.rs
lines 155-159). -/
def parseUnlessDomain (trigger_source : List (List Char × JVal)) : Option DomainMatcher :=
  ((jGet trigger_source (lc ("unless-domain"))).bind JVal.as_array).map
    (fun i => DomainMatcher.new (i.filterMap JVal.as_str))

/-- The body of the rule loop of `parse_list_impl` (src/parse.rs lines
99-187): `none` models `continue` (the element contributes no rule). -/
def parseRule (rule : JVal) : Option Rule :=
  match rule.as_object with
  | none => none
  | some o =>
    match (jGet o (lc ("trigger"))).bind JVal.as_object with
    | none => none
    | some trigger_source =>
      let url_filter_is_case_sensitive :=
        ((jGet trigger_source (lc ("url-filter-is-case-sensitive"))).bind
          JVal.as_bool).getD false
      match (jGet trigger_source (lc ("url-filter"))).bind JVal.as_str with
      | none => none
      | some filter =>
        let flag := if url_filter_is_case_sensitive then lc ("(?i)") else []
        match Regex.new (flag ++ filter) with
        | none => none
        | some url_filter =>
          let if_domain := parseIfDomain trigger_source
          let unless_domain := parseUnlessDomain trigger_source
          if if_domain.isSome && unless_domain.isSome then none
          else
            let domain_constraint :=
              match if_domain with
              | some list => some (DomainConstraint.If list)
              | none =>
                match unless_domain with
                | some list => some (DomainConstraint.Unless list)
                | none => none
            match (jGet o (lc ("action"))).bind Action.from_json with
            | none => none
            | some action =>
              some { trigger :=
                       { url_filter := url_filter,
                         resource_type := parseResourceType trigger_source,
                         load_type := parseLoadType trigger_source,
                         domain_constraint := domain_constraint },
                     action := action }

/-- `parse_list_impl` from src/parse.rs.  The serde_json collaborator is
modelled as the explicit input: `none` stands for text that is not valid
JSON, `some v` for text whose parse is `v`.  The loop over the array
pushes zero or one rule per element, i.e. it is a `filterMap`. -/
def parse_list_impl (parsed : Option JVal) : Except Error (List Rule) :=
  match parsed with
  | none => Except.error Error.JSON
  | some json_body =>
    match json_body.as_array with
    | none => Except.error Error.NotAList
    | some list => Except.ok (list.filterMap parseRule)

/-! Concrete JSON inputs used by the claim theorems. -/

/-- Builds a JSON string value from a Lean string literal. -/
def jstr (s : String) : JVal := JVal.str s.data

/-- Builds a JSON object value from Lean string keys. -/
def jobj (l : List (String × JVal)) : JVal :=
  JVal.obj (l.map (fun kv => (kv.1.data, kv.2)))

/-- A rule object with `url-filter` `"hi"` and no case-sensitivity flag. -/
def caseElemNoFlag : JVal :=
  jobj [("trigger", jobj [("url-filter", jstr ("hi"))]),
        ("action", jobj [("type", jstr ("block"))])]

/-- A rule object with `url-filter` `"hi"` and
`url-filter-is-case-sensitive` set to `true`. -/
def caseElemFlagTrue : JVal :=
  jobj [("trigger", jobj [("url-filter", jstr ("hi")),
                          ("url-filter-is-case-sensitive", JVal.bool true)]),
        ("action", jobj [("type", jstr ("block"))])]

/-- A request whose URL contains `"HI"` in upper case. -/
def caseReqHI : Request :=
  ⟨⟨lc ("http://example.org/HI"), some (lc ("example.org"))⟩, .Document, .FirstParty⟩

/-- The rule the loader produces from `caseElemNoFlag`. -/
def caseRuleNoFlag : Rule := ⟨⟨⟨false, lc ("hi")⟩, .All, none, none⟩, .Block⟩

/-- The rule the loader produces from `caseElemFlagTrue`. -/
def caseRuleFlagTrue : Rule := ⟨⟨⟨true, lc ("hi")⟩, .All, none, none⟩, .Block⟩

/-! Theorems settling the claims. -/

/-- C1: the code inverts the documented meaning of
`url-filter-is-case-sensitive`.  A rule with `url-filter` `"hi"` and no
flag compiles to a case-sensitive pattern that does not match a URL
containing `"HI"`, while setting the flag to `true` compiles the
case-insensitivity toggle `(?i)` into the pattern, which then does match
`"HI"` — the exact opposite of the claim. -/
theorem c1_case_sensitivity_inverted :
    parse_list_impl (some (JVal.arr [caseElemNoFlag])) = Except.ok [caseRuleNoFlag] ∧
    caseRuleNoFlag.trigger.matches caseReqHI = false ∧
    parse_list_impl (some (JVal.arr [caseElemFlagTrue])) = Except.ok [caseRuleFlagTrue] ∧
    caseRuleFlagTrue.trigger.matches caseReqHI = true :=
  ⟨rfl, by decide, rfl, by decide⟩

/-- C6: the loader fails with the `JSON` (Malformed) error exactly when
the serde_json collaborator rejects the text, fails with `NotAList`
exactly when the parsed root value is not an array, returns no rules in
either error case (the `Except.error` result carries none), and succeeds
with a rule set on every array root. -/
theorem c6_fatal_errors (parsed : Option JVal) :
    (parse_list_impl parsed = Except.error Error.JSON ↔ parsed = none) ∧
    (parse_list_impl parsed = Except.error Error.NotAList ↔
      ∃ v, parsed = some v ∧ ∀ l, v ≠ JVal.arr l) ∧
    (∀ v l, parsed = some v → v.as_array = some l →
      ∃ rules, parse_list_impl parsed = Except.ok rules) := by
  refine ⟨?_, ?_, ?_⟩
  · cases parsed with
    | none => simp [parse_list_impl]
    | some v => cases v <;> simp [parse_list_impl, JVal.as_array]
  · cases parsed with
    | none => simp [parse_list_impl]
    | some v =>
      cases v with
      | arr l =>
        constructor
        · intro h
          exact absurd h (by simp [parse_list_impl, JVal.as_array])
        · rintro ⟨v, hv, hl⟩
          cases hv
          exact absurd rfl (hl l)
      | null => exact iff_of_true rfl ⟨_, rfl, fun l h => nomatch h⟩
      | bool b => exact iff_of_true rfl ⟨_, rfl, fun l h => nomatch h⟩
      | num n => exact iff_of_true rfl ⟨_, rfl, fun l h => nomatch h⟩
      | str s => exact iff_of_true rfl ⟨_, rfl, fun l h => nomatch h⟩
      | obj o => exact iff_of_true rfl ⟨_, rfl, fun l h => nomatch h⟩
  · intro v l hv harr
    subst hv
    simp [parse_list_impl, harr]

/-- Witness for C6 at the empty JSON array. -/
theorem c6_fatal_errors_witness :
    ∃ rules, parse_list_impl (some (JVal.arr [])) = Except.ok rules :=
  (c6_fatal_errors (some (JVal.arr []))).2.2 (JVal.arr []) [] rfl rfl

/-- C9: evaluation is a function of the rule set and the request alone,
so two evaluations of equal inputs give identical reaction lists; the
rule set is consumed through a shared borrow in the source and is an
unchanged input of the pure embedded function. -/
theorem c9_evaluation_deterministic (rules rules' : List Rule)
    (request request' : Request)
    (hr : rules = rules') (hq : request = request') :
    process_rules_for_request rules request =
      process_rules_for_request rules' request' := by
  rw [hr, hq]

/-- Witness for C9 on a concrete rule set and request. -/
theorem c9_evaluation_deterministic_witness :
    process_rules_for_request [caseRuleNoFlag] caseReqHI =
      process_rules_for_request [caseRuleNoFlag] caseReqHI :=
  c9_evaluation_deterministic [caseRuleNoFlag] [caseRuleNoFlag]
    caseReqHI caseReqHI rfl rfl

/-- The ordered rules R1 (Block on `/x`), R2 (IgnorePreviousRules on
`/x/sub`), R3 (BlockCookies on `/x/sub`). -/
def resetRules : List Rule :=
  [⟨⟨⟨false, lc ("/x")⟩, .All, none, none⟩, .Block⟩,
   ⟨⟨⟨false, lc ("/x/sub")⟩, .All, none, none⟩, .IgnorePreviousRules⟩,
   ⟨⟨⟨false, lc ("/x/sub")⟩, .All, none, none⟩, .BlockCookies⟩]

/-- A request whose URL matches both `/x` and `/x/sub`. -/
def resetRequest : Request :=
  ⟨⟨lc ("http://domain.org/x/sub"), some (lc ("domain.org"))⟩, .Document, .FirstParty⟩

/-- C4: a matching `IgnorePreviousRules` rule contributes nothing and
clears the accumulator, so evaluation of the rules before it is erased
and evaluation continues with the rules after it; on the ordered rules
[Block on `/x`, IgnorePreviousRules on `/x/sub`, BlockCookies on
`/x/sub`] a request matching `/x/sub` yields exactly [BlockCookies]. -/
theorem c4_reset_reactions (reactions : List Reaction) (pre post : List Rule)
    (r : Rule) (request : Request)
    (hm : r.trigger.matches request = true) (ha : r.action = .IgnorePreviousRules) :
    Action.IgnorePreviousRules.process reactions = [] ∧
    process_rules_for_request (pre ++ r :: post) request =
      process_rules_for_request post request ∧
    process_rules_for_request resetRules resetRequest = [Reaction.BlockCookies] := by
  refine ⟨rfl, ?_, by decide⟩
  unfold process_rules_for_request
  rw [List.foldl_append, List.foldl_cons]
  simp [hm, ha, Action.process]

/-- Witness for C4 on the three concrete rules of the claim. -/
theorem c4_reset_reactions_witness :
    process_rules_for_request resetRules resetRequest = [Reaction.BlockCookies] :=
  (c4_reset_reactions [] []
      [⟨⟨⟨false, lc ("/x/sub")⟩, .All, none, none⟩, .BlockCookies⟩]
      ⟨⟨⟨false, lc ("/x/sub")⟩, .All, none, none⟩, .IgnorePreviousRules⟩
      resetRequest (by decide) rfl).2.2

/-- The per-suffix check of `DomainMatcher::matches`, characterised as
the equal-or-strict-subdomain relation described by the spec. -/
theorem subdomain_entry_check (host e : List Char) :
    (match compare host.length e.length with
     | .eq => host == e
     | .gt => decide (host.getD (host.length - e.length - 1) ' ' = '.')
              && e.isSuffixOf host
     | .lt => false) = true ↔
    host = e ∨ (e.length < host.length ∧ e.isSuffixOf host = true ∧
      host.getD (host.length - e.length - 1) ' ' = '.') := by
  rcases Nat.lt_trichotomy host.length e.length with hlt | heq | hgt
  · rw [Nat.compare_eq_lt.mpr hlt]
    simp only [Bool.false_eq_true, false_iff]
    rintro (rfl | ⟨h1, h2, h3⟩) <;> omega
  · rw [Nat.compare_eq_eq.mpr heq]
    simp only [beq_iff_eq]
    constructor
    · exact fun h => Or.inl h
    · rintro (h | ⟨h1, h2, h3⟩)
      · exact h
      · omega
  · rw [Nat.compare_eq_gt.mpr hgt]
    constructor
    · intro h
      rw [Bool.and_eq_true, decide_eq_true_eq] at h
      exact Or.inr ⟨hgt, h.2, h.1⟩
    · rintro (rfl | ⟨h1, h2, h3⟩)
      · omega
      · rw [Bool.and_eq_true, decide_eq_true_eq]
        exact ⟨h3, h2⟩

/-- C2: the domain matcher accepts a request exactly when its host is an
exact entry, equals a subdomain entry, or is a strict subdomain of a
subdomain entry (strictly longer, ends with the entry, and the character
just before the suffix is `.`); the decision depends only on the URL's
host, never on path or query text, and host `evil.com` does not match
subdomain entry `notevil.com`. -/
theorem c2_domain_matcher :
    (∀ (m : DomainMatcher) (url : Url) (host : List Char), url.domain = some host →
      (m.matches url = true ↔
        host ∈ m.exact ∨
        ∃ e ∈ m.subdomain, host = e ∨
          (e.length < host.length ∧ e.isSuffixOf host = true ∧
            host.getD (host.length - e.length - 1) ' ' = '.'))) ∧
    (∀ (m : DomainMatcher) (u u' : Url), u.domain = u'.domain →
      m.matches u = m.matches u') ∧
    DomainMatcher.matches ⟨[], [lc ("notevil.com")]⟩
      ⟨lc ("http://evil.com/page"), some (lc ("evil.com"))⟩ = false := by
  refine ⟨?_, ?_, by decide⟩
  · intro m url host hdom
    unfold DomainMatcher.matches
    rw [hdom]
    simp only [Bool.or_eq_true, List.any_eq_true, beq_iff_eq]
    constructor
    · rintro (⟨c, hc, rfl⟩ | ⟨e, he, hcheck⟩)
      · exact Or.inl hc
      · exact Or.inr ⟨e, he, (subdomain_entry_check host e).mp hcheck⟩
    · rintro (hmem | ⟨e, he, hspec⟩)
      · exact Or.inl ⟨host, hmem, rfl⟩
      · exact Or.inr ⟨e, he, (subdomain_entry_check host e).mpr hspec⟩
  · intro m u u' h
    unfold DomainMatcher.matches
    rw [h]

/-- Witness for C2: host `bad.org` is accepted through its exact entry. -/
theorem c2_domain_matcher_witness :
    DomainMatcher.matches ⟨[lc ("bad.org")], []⟩
      ⟨lc ("http://bad.org/ad.html"), some (lc ("bad.org"))⟩ = true :=
  (c2_domain_matcher.1 ⟨[lc ("bad.org")], []⟩
      ⟨lc ("http://bad.org/ad.html"), some (lc ("bad.org"))⟩
      (lc ("bad.org")) rfl).mpr (Or.inl (by decide))

/-- Unfolding equation for `Trigger.matches` on a literal trigger. -/
theorem trigger_matches_mk (urlf : Regex) (rtl : ResourceTypeList)
    (lt : Option LoadType) (dc : Option DomainConstraint) (request : Request) :
    (Trigger.mk urlf rtl lt dc).matches request =
      if (match rtl with
          | .List types => (types.find? (fun ty => ty == request.resource_type)).isNone
          | .All => false)
      then false
      else if (match lt with
               | some load_type => request.load_type != load_type
               | none => false)
      then false
      else if urlf.is_match request.url.full then
        match dc with
        | some (.If m) => m.matches request.url
        | some (.Unless m) => !(m.matches request.url)
        | none => true
      else false := rfl

/-- C5: when the resource-type and load-type filters pass but the URL
pattern fails, the trigger rejects the request whatever its domain
constraint is (the constraint is never consulted); when the URL pattern
matches, the trigger matches exactly when there is no constraint, the
If-matcher accepts the host, or the Unless-matcher rejects it. -/
theorem c5_url_gate (t : Trigger) (request : Request)
    (hres : ∀ types, t.resource_type = ResourceTypeList.List types →
      request.resource_type ∈ types)
    (hload : ∀ loadt, t.load_type = some loadt → request.load_type = loadt) :
    (t.url_filter.is_match request.url.full = false →
      ∀ dc, (Trigger.mk t.url_filter t.resource_type t.load_type dc).matches request = false) ∧
    (t.url_filter.is_match request.url.full = true →
      (t.matches request = true ↔
        t.domain_constraint = none ∨
        (∃ m, t.domain_constraint = some (DomainConstraint.If m) ∧
          m.matches request.url = true) ∨
        (∃ m, t.domain_constraint = some (DomainConstraint.Unless m) ∧
          m.matches request.url = false))) := by
  obtain ⟨urlf, rtl, lt, dc⟩ := t
  have hres' : ∀ types, rtl = ResourceTypeList.List types →
      request.resource_type ∈ types := hres
  have hload' : ∀ loadt, lt = some loadt → request.load_type = loadt := hload
  have g1 : ∀ dc' : Option DomainConstraint,
      (Trigger.mk urlf rtl lt dc').matches request =
        (if urlf.is_match request.url.full then
          match dc' with
          | some (DomainConstraint.If m) => m.matches request.url
          | some (DomainConstraint.Unless m) => !(m.matches request.url)
          | none => true
        else false) := by
    intro dc'
    rw [trigger_matches_mk]
    cases rtl with
    | All =>
      cases lt with
      | none => simp
      | some loadt => simp [hload' loadt rfl]
    | List types =>
      have hmem := hres' types rfl
      have hfound : (types.find? (fun ty => ty == request.resource_type)).isSome = true :=
        List.find?_isSome.mpr ⟨request.resource_type, hmem, by simp⟩
      cases hfind : types.find? (fun ty => ty == request.resource_type) with
      | none => rw [hfind] at hfound; cases hfound
      | some x =>
        cases lt with
        | none => simp [hfind]
        | some loadt => simp [hfind, hload' loadt rfl]
  constructor
  · intro hurl dc'
    rw [g1 dc', hurl]
    simp
  · intro hurl
    rw [g1 dc, hurl]
    simp only [if_true]
    cases dc with
    | none => simp
    | some c =>
      cases c with
      | If m => simp
      | Unless m => simp [Bool.not_eq_true']

/-- Witness for C5: a trigger whose filters pass and whose URL pattern
matches, with no domain constraint, matches the request. -/
theorem c5_url_gate_witness :
    (Trigger.mk ⟨false, lc ("ad")⟩ (.List [.Document]) (some .FirstParty) none).matches
      ⟨⟨lc ("http://x.org/ad.html"), some (lc ("x.org"))⟩, .Document, .FirstParty⟩ = true :=
  ((c5_url_gate
      (Trigger.mk ⟨false, lc ("ad")⟩ (.List [.Document]) (some .FirstParty) none)
      ⟨⟨lc ("http://x.org/ad.html"), some (lc ("x.org"))⟩, .Document, .FirstParty⟩
      (by intro types h; cases h; decide)
      (by intro loadt h; cases h; rfl)).2 (by decide)).mpr (Or.inl rfl)

/-- The head of a `filterMap` is the first entry on which the function
succeeds. -/
theorem head?_filterMap_eq_findSome? {α β : Type} (f : α → Option β) :
    ∀ l : List α, (l.filterMap f).head? = l.findSome? f
  | [] => rfl
  | a :: l => by
    cases h : f a with
    | none =>
      simp [List.filterMap_cons, List.findSome?_cons, h,
        head?_filterMap_eq_findSome? f l]
    | some b => simp [List.filterMap_cons, List.findSome?_cons, h]

/-- C8: a `load-type` array yields the first recognised entry (skipping
non-string and unrecognised entries); a missing field yields no filter,
and a trigger without a load-type filter matches independently of the
request's party type. -/
theorem c8_load_type :
    (∀ ts list, jGet ts (lc ("load-type")) = some (JVal.arr list) →
      parseLoadType ts = list.findSome? (fun l => l.as_str.bind LoadType.from_str)) ∧
    (∀ ts, jGet ts (lc ("load-type")) = none → parseLoadType ts = none) ∧
    (∀ (t : Trigger) (request : Request) (lta ltb : LoadType), t.load_type = none →
      t.matches { request with load_type := lta } =
        t.matches { request with load_type := ltb }) := by
  refine ⟨?_, ?_, ?_⟩
  · intro ts list h
    unfold parseLoadType
    rw [h]
    simp [JVal.as_array, head?_filterMap_eq_findSome?]
  · intro ts h
    unfold parseLoadType
    rw [h]
    rfl
  · intro t request lta ltb h
    obtain ⟨urlf, rtl, lt, dc⟩ := t
    cases lt with
    | none => rfl
    | some loadt => simp at h

/-- Concrete `load-type` trigger source: the first recognised entry is
`third-party`, after a bogus tag and a non-string entry. -/
def loadTypeTs : List (List Char × JVal) :=
  [(lc ("load-type"),
    JVal.arr [jstr ("bogus"), JVal.num 3, jstr ("third-party"), jstr ("first-party")])]

/-- Witness for C8 on `loadTypeTs`. -/
theorem c8_load_type_witness :
    parseLoadType loadTypeTs = some LoadType.ThirdParty := by
  rw [c8_load_type.1 loadTypeTs
    [jstr ("bogus"), JVal.num 3, jstr ("third-party"), jstr ("first-party")] rfl]
  rfl

/-- C10: an `if-domain` field holding the empty array loads as the empty
If-matcher; a trigger constrained by an empty If-matcher matches no
request at all, while an empty Unless-matcher constrains nothing: the
trigger behaves exactly as if it had no domain constraint. -/
theorem c10_empty_domain_constraints :
    (∀ ts, jGet ts (lc ("if-domain")) = some (JVal.arr []) →
      parseIfDomain ts = some (DomainMatcher.mk [] [])) ∧
    (∀ (urlf : Regex) (rtl : ResourceTypeList) (lt : Option LoadType) (request : Request),
      (Trigger.mk urlf rtl lt
        (some (DomainConstraint.If (DomainMatcher.mk [] [])))).matches request = false) ∧
    (∀ (urlf : Regex) (rtl : ResourceTypeList) (lt : Option LoadType) (request : Request),
      (Trigger.mk urlf rtl lt
        (some (DomainConstraint.Unless (DomainMatcher.mk [] [])))).matches request =
        (Trigger.mk urlf rtl lt none).matches request) := by
  have hempty : ∀ url : Url, DomainMatcher.matches ⟨[], []⟩ url = false := by
    intro url
    unfold DomainMatcher.matches
    cases url.domain <;> simp
  refine ⟨?_, ?_, ?_⟩
  · intro ts h
    unfold parseIfDomain
    rw [h]
    rfl
  · intro urlf rtl lt request
    rw [trigger_matches_mk]
    split_ifs <;> simp [hempty]
  · intro urlf rtl lt request
    rw [trigger_matches_mk, trigger_matches_mk]
    split_ifs <;> simp [hempty]

/-- Witness for C10: `if-domain: []` loads as the empty matcher. -/
theorem c10_empty_domain_constraints_witness :
    parseIfDomain [(lc ("if-domain"), JVal.arr [])] = some (DomainMatcher.mk [] []) :=
  c10_empty_domain_constraints.1 [(lc ("if-domain"), JVal.arr [])] rfl

/-- A rule object whose `resource-type` array holds only the
unrecognised tag `"bogus"`. -/
def bogusResourceElem : JVal :=
  jobj [("trigger", jobj [("url-filter", jstr ("")),
                          ("resource-type", JVal.arr [jstr ("bogus")])]),
        ("action", jobj [("type", jstr ("block"))])]

/-- The rule the loader produces from `bogusResourceElem`: an explicit
empty resource-type list. -/
def bogusResourceRule : Rule := ⟨⟨⟨false, []⟩, .List [], none, none⟩, .Block⟩

/-- A document request whose URL every empty pattern matches. -/
def docRequest : Request :=
  ⟨⟨lc ("http://domain.org/page"), some (lc ("domain.org"))⟩, .Document, .FirstParty⟩

/-- C3 counterexample: a `resource-type` array containing only
unrecognised tags loads as the explicit EMPTY list, and the resulting
trigger matches no resource type at all — not every resource type as the
claim states — even though its URL pattern accepts the request. -/
theorem c3_counterexample :
    parseRule bogusResourceElem = some bogusResourceRule ∧
    bogusResourceRule.trigger.matches docRequest = false :=
  ⟨rfl, by decide⟩

/-- C3 amended: a missing `resource-type` field loads as All, and an
All trigger matches independently of the request's resource type; a
`resource-type` array keeps exactly its recognised tags; when no tag is
recognised the explicit list is empty and the trigger matches no
request. -/
theorem c3_resource_type_amended :
    (∀ ts, jGet ts (lc ("resource-type")) = none → parseResourceType ts = .All) ∧
    (∀ (urlf : Regex) (lt : Option LoadType) (dc : Option DomainConstraint)
        (request : Request) (rta rtb : ResourceType),
      (Trigger.mk urlf .All lt dc).matches { request with resource_type := rta } =
        (Trigger.mk urlf .All lt dc).matches { request with resource_type := rtb }) ∧
    (∀ ts list, jGet ts (lc ("resource-type")) = some (JVal.arr list) →
      ∃ kept, parseResourceType ts = .List kept ∧
        ∀ rt, rt ∈ kept ↔ ∃ v ∈ list, v.as_str.bind ResourceType.from_str = some rt) ∧
    (∀ (urlf : Regex) (lt : Option LoadType) (dc : Option DomainConstraint)
        (request : Request),
      (Trigger.mk urlf (.List []) lt dc).matches request = false) := by
  refine ⟨?_, ?_, ?_, ?_⟩
  · intro ts h
    unfold parseResourceType
    rw [h]
    rfl
  · intro urlf lt dc request rta rtb
    rfl
  · intro ts list h
    unfold parseResourceType
    rw [h]
    refine ⟨_, rfl, ?_⟩
    intro rt
    exact List.mem_filterMap
  · intro urlf lt dc request
    rfl

/-- Witness for C3 (amended) on an empty trigger source. -/
theorem c3_resource_type_amended_witness :
    parseResourceType [] = ResourceTypeList.All :=
  c3_resource_type_amended.1 [] rfl

/-- A rule object carrying both domain fields, with a non-array
`if-domain` value (the number 5) and an array `unless-domain` value. -/
def conflictNonArrayElem : JVal :=
  jobj [("trigger", jobj [("url-filter", jstr ("")),
                          ("if-domain", JVal.num 5),
                          ("unless-domain", JVal.arr [])]),
        ("action", jobj [("type", jstr ("block"))])]

/-- The rule the loader produces from `conflictNonArrayElem`. -/
def conflictRule : Rule := ⟨⟨⟨false, []⟩, .All, none, some (.Unless ⟨[], []⟩)⟩, .Block⟩

/-- C7 counterexample: an element that has both an `if-domain` and an
`unless-domain` field is NOT dropped when the `if-domain` value is not
an array: `as_array` fails on it, the presence check sees only
`unless-domain`, and the rule is loaded with an Unless constraint — so
the result is not the rule set of the input with the element removed. -/
theorem c7_counterexample :
    parse_list_impl (some (JVal.arr [conflictNonArrayElem])) = Except.ok [conflictRule] ∧
    parse_list_impl (some (JVal.arr [])) = Except.ok [] ∧
    ([conflictRule] : List Rule) ≠ [] :=
  ⟨rfl, rfl, by decide⟩

/-- C7 amended: an element whose trigger object carries both fields with
ARRAY values — whatever those arrays hold — contributes no rule, and the
loaded rule set of any list containing it is that of the same list with
the element removed. -/
theorem c7_conflicting_domains_amended (elem : JVal) (o ts : List (List Char × JVal))
    (ia ua : List JVal) (pre post : List JVal)
    (ho : elem.as_object = some o)
    (ht : (jGet o (lc ("trigger"))).bind JVal.as_object = some ts)
    (hi : jGet ts (lc ("if-domain")) = some (JVal.arr ia))
    (hu : jGet ts (lc ("unless-domain")) = some (JVal.arr ua)) :
    parseRule elem = none ∧
    parse_list_impl (some (JVal.arr (pre ++ elem :: post))) =
      parse_list_impl (some (JVal.arr (pre ++ post))) := by
  have hif : (parseIfDomain ts).isSome = true := by
    unfold parseIfDomain
    rw [hi]
    rfl
  have hun : (parseUnlessDomain ts).isSome = true := by
    unfold parseUnlessDomain
    rw [hu]
    rfl
  have hdrop : parseRule elem = none := by
    unfold parseRule
    rw [ho]
    simp only []
    rw [ht]
    simp only []
    split
    · rfl
    · split
      · rfl
      · simp [hif, hun]
  refine ⟨hdrop, ?_⟩
  unfold parse_list_impl
  simp [JVal.as_array, List.filterMap_append, List.filterMap_cons, hdrop]

/-- An element with both domain fields present as arrays. -/
def conflictArraysElem : JVal :=
  jobj [("trigger", jobj [("url-filter", jstr ("")),
                          ("if-domain", JVal.arr [jstr ("a.org")]),
                          ("unless-domain", JVal.arr [])]),
        ("action", jobj [("type", jstr ("block"))])]

/-- Witness for C7 (amended): the conflicting element is dropped. -/
theorem c7_conflicting_domains_amended_witness :
    parse_list_impl (some (JVal.arr [conflictArraysElem])) =
      parse_list_impl (some (JVal.arr [])) :=
  (c7_conflicting_domains_amended conflictArraysElem _ _ [jstr ("a.org")] [] [] []
    rfl rfl rfl rfl).2

end ContentBlocker
